import Mathlib

/-!
Verification of the socket-server-canvas session engine
(`src/socket/socket.ts`, event names from `src/socket/socket.events.ts`).

The embedding models:
- the process-wide registry `rooms : Map<string, RoomState>` as an
  insertion-ordered association list (JS `Map` semantics: `set` on an
  existing key updates in place, on a fresh key appends; `delete`
  removes; `values()` iterates in insertion order);
- the transport layer's room membership (`socket.join` / `socket.leave`
  and the room a broadcast reaches) as a second association list from
  room id to the list of member socket ids;
- each connection's closure variables `currentRoomId` / `currentUserId`
  as a `Binding` record threaded through the handlers;
- every outbound `emit` as a `Delivery` whose recipient list is computed
  from the membership current at the moment of the emit:
  `io.to(r).emit` reaches all members of `r`, `socket.to(r).emit`
  reaches all members except the sender, `socket.emit` the sender only.

Each handler is a pure function from (server state, binding, sender
socket id, payload) to (new server state, new binding, deliveries),
translated line by line from the source.
-/

/-- A 2-D point, used both for cursor positions and stroke points. -/
structure Point2 where
  x : Int
  y : Int
deriving DecidableEq

/-- The `User` record of `socket.ts` lines 5-11. -/
structure User where
  id : String
  name : String
  color : String
  cursor : Option Point2
  isOnline : Bool
deriving DecidableEq

/-- The `DrawingStroke` record of `socket.ts` lines 13-21. -/
structure DrawingStroke where
  id : String
  points : List Point2
  color : String
  width : Int
  tool : String
  userId : String
  timestamp : Int
deriving DecidableEq

/-- The `RoomState` record of `socket.ts` lines 23-27; `users` is the
insertion-ordered participant map. -/
structure RoomState where
  users : List (String × User)
  strokes : List DrawingStroke
  redoStack : List DrawingStroke
deriving DecidableEq

/-- Lookup in an insertion-ordered association list (JS `Map.get`). -/
def assocGet {α : Type} (m : List (String × α)) (k : String) : Option α :=
  match m with
  | [] => none
  | (k2, v) :: rest => if k2 = k then some v else assocGet rest k

/-- JS `Map.set`: update in place when the key exists, append otherwise. -/
def assocSet {α : Type} (m : List (String × α)) (k : String) (v : α) :
    List (String × α) :=
  match m with
  | [] => [(k, v)]
  | (k2, v2) :: rest =>
    if k2 = k then (k, v) :: rest else (k2, v2) :: assocSet rest k v

/-- JS `Map.delete`: remove the (first) entry with the given key. -/
def assocDelete {α : Type} (m : List (String × α)) (k : String) :
    List (String × α) :=
  match m with
  | [] => []
  | (k2, v2) :: rest =>
    if k2 = k then rest else (k2, v2) :: assocDelete rest k

/-- A fresh empty room, as allocated by `getOrCreateRoom` (lines 33-39). -/
def emptyRoom : RoomState := ⟨[], [], []⟩

/-- `getOrCreateRoom` (lines 32-41) acting on the registry: returns the
possibly-extended registry together with the room that was found or
created. -/
def getOrCreateRooms (rooms : List (String × RoomState)) (rid : String) :
    List (String × RoomState) × RoomState :=
  match assocGet rooms rid with
  | some room => (rooms, room)
  | none => (rooms ++ [(rid, emptyRoom)], emptyRoom)

/-- `getUsersArray` (lines 43-45): the participant records in insertion
order. -/
def getUsersArray (room : RoomState) : List User :=
  room.users.map Prod.snd

/-- Transport-room membership: socket ids per room id. -/
def membersIn (ms : List (String × List String)) (rid : String) :
    List String :=
  (assocGet ms rid).getD []

/-- `socket.join(rid)`: idempotent addition of a socket to a transport
room. -/
def memberJoin (ms : List (String × List String)) (rid sid : String) :
    List (String × List String) :=
  match assocGet ms rid with
  | none => ms ++ [(rid, [sid])]
  | some l => if sid ∈ l then ms else assocSet ms rid (l ++ [sid])

/-- `socket.leave(rid)`: removal of a socket from a transport room. -/
def memberLeave (ms : List (String × List String)) (rid sid : String) :
    List (String × List String) :=
  match assocGet ms rid with
  | none => ms
  | some l => assocSet ms rid (l.erase sid)

/-- The whole mutable server state: the Session Registry (`rooms`, line
30) and the transport's per-room membership. -/
structure ServerState where
  rooms : List (String × RoomState)
  members : List (String × List String)
deriving DecidableEq

/-- The per-connection closure variables `currentRoomId` and
`currentUserId` (lines 60-61). -/
structure Binding where
  currentRoomId : Option String
  currentUserId : Option String
deriving DecidableEq

/-- Outbound event kinds (values of `SOCKET_EVENTS` that the server
emits). -/
inductive EventKind where
  | roomJoined
  | userJoin
  | userLeave
  | usersList
  | strokeReceived
  | strokeStreamReceived
  | cursorUpdate
  | canvasState
  | canvasCleared
  | roomDeleted
deriving DecidableEq

/-- Payloads of outbound events. -/
inductive Payload where
  | roomJoinedP (users : List User) (strokes : List DrawingStroke)
  | userJoinP (user : User)
  | userLeaveP (userId : Option String)
  | usersListP (users : List User)
  | strokeP (stroke : DrawingStroke)
  | streamP (strokeId : String) (userId : String) (point : Point2)
      (color : String) (width : Int) (tool : String) (isStart : Bool)
  | cursorP (userId : String) (position : Option Point2)
  | canvasStateP (strokes : List DrawingStroke)
  | noPayload
  | roomDeletedP (roomId : String) (reason : String)
deriving DecidableEq

/-- One outbound emission: the event, its payload, and the sockets it
reaches, resolved against the membership current at emit time. -/
structure Delivery where
  event : EventKind
  payload : Payload
  recipients : List String
deriving DecidableEq

/-- `io.to(rid).emit(e, p)`: reaches every current member of `rid`. -/
def ioTo (st : ServerState) (rid : String) (e : EventKind) (p : Payload) :
    Delivery :=
  ⟨e, p, membersIn st.members rid⟩

/-- `socket.to(rid).emit(e, p)`: reaches every current member of `rid`
except the sender. -/
def socketTo (st : ServerState) (sender rid : String) (e : EventKind)
    (p : Payload) : Delivery :=
  ⟨e, p, (membersIn st.members rid).erase sender⟩

/-- `socket.emit(e, p)`: reaches the sender only. -/
def socketEmit (sender : String) (e : EventKind) (p : Payload) : Delivery :=
  ⟨e, p, [sender]⟩

/-- The `JOIN_ROOM` handler (lines 64-110). The previous-room block runs
when `currentRoomId` is truthy (non-null, non-empty); it does
`socket.leave`, removes the participant (`currentUserId || ''`), and
emits `USER_LEAVE` then `USERS_LIST` to the old room via `io.to`.
Afterwards the binding is overwritten, the socket joins the new room,
the room is fetched or created, the participant record is written, and
the snapshot / `USER_JOIN` / `USERS_LIST` emits follow. -/
def handleJoinRoom (st : ServerState) (b : Binding) (sender : String)
    (roomId userId userName userColor : String) :
    ServerState × Binding × List Delivery :=
  let stepLeave : ServerState × List Delivery :=
    match b.currentRoomId with
    | none => (st, [])
    | some prevRid =>
      if prevRid = "" then (st, [])
      else
        let stA : ServerState :=
          { st with members := memberLeave st.members prevRid sender }
        match assocGet stA.rooms prevRid with
        | none => (stA, [])
        | some prevRoom =>
          let prevRoom2 : RoomState :=
            { prevRoom with
                users := assocDelete prevRoom.users (b.currentUserId.getD "") }
          let stB : ServerState :=
            { stA with rooms := assocSet stA.rooms prevRid prevRoom2 }
          (stB,
           [ioTo stB prevRid .userLeave (.userLeaveP b.currentUserId),
            ioTo stB prevRid .usersList (.usersListP (getUsersArray prevRoom2))])
  let st1 := stepLeave.1
  let b2 : Binding := ⟨some roomId, some userId⟩
  let st2 : ServerState :=
    { st1 with members := memberJoin st1.members roomId sender }
  let fetched := getOrCreateRooms st2.rooms roomId
  let user : User := ⟨userId, userName, userColor, none, true⟩
  let room2 : RoomState :=
    { fetched.2 with users := assocSet fetched.2.users userId user }
  let st3 : ServerState :=
    { st2 with rooms := assocSet fetched.1 roomId room2 }
  (st3, b2,
   stepLeave.2 ++
   [socketEmit sender .roomJoined
      (.roomJoinedP (getUsersArray room2) room2.strokes),
    socketTo st3 sender roomId .userJoin (.userJoinP user),
    ioTo st3 roomId .usersList (.usersListP (getUsersArray room2))])

/-- The `LEAVE_ROOM` handler (lines 113-133): `socket.leave` first, then
if the room is registered remove the participant, emit `USER_LEAVE` and
`USERS_LIST` via `io.to`, and delete the room when it became empty.
The binding is cleared unconditionally. -/
def handleLeaveRoom (st : ServerState) (b : Binding)
    (sender roomId userId : String) :
    ServerState × Binding × List Delivery :=
  let st1 : ServerState :=
    { st with members := memberLeave st.members roomId sender }
  match assocGet st1.rooms roomId with
  | none => (st1, ⟨none, none⟩, [])
  | some room =>
    let room2 : RoomState :=
      { room with users := assocDelete room.users userId }
    let roomsSet := assocSet st1.rooms roomId room2
    let rooms2 :=
      if room2.users.length = 0 then assocDelete roomsSet roomId else roomsSet
    ({ st1 with rooms := rooms2 }, ⟨none, none⟩,
     [ioTo st1 roomId .userLeave (.userLeaveP (some userId)),
      ioTo st1 roomId .usersList (.usersListP (getUsersArray room2))])

/-- The `STROKE_ADD` handler (lines 136-145): on a registered room, push
the stroke, clear the redo stack, and relay the stroke sender-excluded. -/
def handleStrokeAdd (st : ServerState) (b : Binding) (sender : String)
    (roomId : String) (stroke : DrawingStroke) :
    ServerState × Binding × List Delivery :=
  match assocGet st.rooms roomId with
  | none => (st, b, [])
  | some room =>
    let room2 : RoomState :=
      { room with strokes := room.strokes ++ [stroke], redoStack := [] }
    ({ st with rooms := assocSet st.rooms roomId room2 }, b,
     [socketTo st sender roomId .strokeReceived (.strokeP stroke)])

/-- The `STROKE_STREAM` handler (lines 148-160): an unconditional
sender-excluded relay of the in-progress point; the registry is never
consulted. -/
def handleStrokeStream (st : ServerState) (b : Binding) (sender : String)
    (roomId strokeId userId : String) (point : Point2) (color : String)
    (width : Int) (tool : String) (isStart : Bool) :
    ServerState × Binding × List Delivery :=
  (st, b,
   [socketTo st sender roomId .strokeStreamReceived
      (.streamP strokeId userId point color width tool isStart)])

/-- The `CURSOR_MOVE` handler (lines 163-178): on a registered room, set
the participant's cursor when the participant exists, and emit the
sender-excluded `CURSOR_UPDATE` regardless of the participant lookup. -/
def handleCursorMove (st : ServerState) (b : Binding) (sender : String)
    (roomId userId : String) (position : Option Point2) :
    ServerState × Binding × List Delivery :=
  match assocGet st.rooms roomId with
  | none => (st, b, [])
  | some room =>
    match assocGet room.users userId with
    | none =>
      (st, b,
       [socketTo st sender roomId .cursorUpdate (.cursorP userId position)])
    | some user =>
      let room2 : RoomState :=
        { room with
            users := assocSet room.users userId { user with cursor := position } }
      ({ st with rooms := assocSet st.rooms roomId room2 }, b,
       [socketTo st sender roomId .cursorUpdate (.cursorP userId position)])

/-- The `CANVAS_UNDO` handler (lines 181-193): on a registered room with
a non-empty stroke log, pop the last stroke, push it on the redo stack,
and broadcast the resulting log to the whole room via `io.to`. -/
def handleCanvasUndo (st : ServerState) (b : Binding) (sender : String)
    (roomId : String) : ServerState × Binding × List Delivery :=
  match assocGet st.rooms roomId with
  | none => (st, b, [])
  | some room =>
    if room.strokes.length > 0 then
      match room.strokes.getLast? with
      | none => (st, b, [])
      | some stroke =>
        let room2 : RoomState :=
          { room with
              strokes := room.strokes.dropLast,
              redoStack := room.redoStack ++ [stroke] }
        ({ st with rooms := assocSet st.rooms roomId room2 }, b,
         [ioTo st roomId .canvasState (.canvasStateP room2.strokes)])
    else (st, b, [])

/-- The `CANVAS_REDO` handler (lines 196-208): on a registered room with
a non-empty redo stack, pop its last stroke, push it back on the stroke
log, and broadcast the resulting log to the whole room via `io.to`. -/
def handleCanvasRedo (st : ServerState) (b : Binding) (sender : String)
    (roomId : String) : ServerState × Binding × List Delivery :=
  match assocGet st.rooms roomId with
  | none => (st, b, [])
  | some room =>
    if room.redoStack.length > 0 then
      match room.redoStack.getLast? with
      | none => (st, b, [])
      | some stroke =>
        let room2 : RoomState :=
          { room with
              strokes := room.strokes ++ [stroke],
              redoStack := room.redoStack.dropLast }
        ({ st with rooms := assocSet st.rooms roomId room2 }, b,
         [ioTo st roomId .canvasState (.canvasStateP room2.strokes)])
    else (st, b, [])

/-- The `CANVAS_CLEAR` handler (lines 211-220): on a registered room,
empty both stacks and broadcast `CANVAS_CLEARED` to the whole room. -/
def handleCanvasClear (st : ServerState) (b : Binding) (sender : String)
    (roomId : String) : ServerState × Binding × List Delivery :=
  match assocGet st.rooms roomId with
  | none => (st, b, [])
  | some room =>
    let room2 : RoomState := { room with strokes := [], redoStack := [] }
    ({ st with rooms := assocSet st.rooms roomId room2 }, b,
     [ioTo st roomId .canvasCleared .noPayload])

/-- The `ROOM_DELETED` handler (lines 223-239): on a registered room,
broadcast `ROOM_DELETED` to the whole room, then delete the room from
the registry. -/
def handleRoomDeleted (st : ServerState) (b : Binding) (sender : String)
    (roomId : String) : ServerState × Binding × List Delivery :=
  match assocGet st.rooms roomId with
  | none => (st, b, [])
  | some _room =>
    ({ st with rooms := assocDelete st.rooms roomId }, b,
     [ioTo st roomId .roomDeleted (.roomDeletedP roomId "Room deleted by owner")])

/-- The `disconnect` handler (lines 241-256). By socket.io semantics the
socket has already left every transport room when the handler runs,
modelled by erasing the sender from all membership lists first. When
both closure variables are truthy, the participant is removed, the
leave notifications are emitted, and an emptied room is deleted. -/
def handleDisconnect (st : ServerState) (b : Binding) (sender : String) :
    ServerState × Binding × List Delivery :=
  let st0 : ServerState :=
    { st with members := st.members.map (fun p => (p.1, p.2.erase sender)) }
  match b.currentRoomId, b.currentUserId with
  | some rid, some uid =>
    if rid = "" ∨ uid = "" then (st0, b, [])
    else
      match assocGet st0.rooms rid with
      | none => (st0, b, [])
      | some room =>
        let room2 : RoomState :=
          { room with users := assocDelete room.users uid }
        let roomsSet := assocSet st0.rooms rid room2
        let rooms2 :=
          if room2.users.length = 0 then assocDelete roomsSet rid else roomsSet
        ({ st0 with rooms := rooms2 }, b,
         [ioTo st0 rid .userLeave (.userLeaveP (some uid)),
          ioTo st0 rid .usersList (.usersListP (getUsersArray room2))])
  | _, _ => (st0, b, [])

/-- Iterated `CANVAS_UNDO` by one sender on one room (state part only). -/
def undoTimes (b : Binding) (sender roomId : String) :
    Nat → ServerState → ServerState
  | 0, st => st
  | n + 1, st =>
    undoTimes b sender roomId n (handleCanvasUndo st b sender roomId).1

/-- Iterated `CANVAS_REDO` by one sender on one room (state part only). -/
def redoTimes (b : Binding) (sender roomId : String) :
    Nat → ServerState → ServerState
  | 0, st => st
  | n + 1, st =>
    redoTimes b sender roomId n (handleCanvasRedo st b sender roomId).1

/-- The participant map of a room id, empty when the room is absent. -/
def usersAt (rooms : List (String × RoomState)) (rid : String) :
    List (String × User) :=
  match assocGet rooms rid with
  | none => []
  | some room => room.users

/-! ## Sample data for witnesses and counterexamples -/

def userA : User := ⟨"ua", "Ann", "red", none, true⟩

def userB : User := ⟨"ub", "Bob", "blue", none, true⟩

def cursorUser : User := ⟨"ua", "Ann", "red", some ⟨1, 2⟩, true⟩

def strokeS1 : DrawingStroke := ⟨"s1", [⟨0, 0⟩], "black", 2, "pen", "ua", 0⟩

def strokeS2 : DrawingStroke := ⟨"s2", [⟨1, 1⟩], "red", 3, "pen", "ub", 1⟩

def strokeS3 : DrawingStroke := ⟨"s3", [], "blue", 1, "eraser", "ua", 2⟩

/-! ## Association-list and membership lemmas -/

theorem assocGet_assocSet_self {α : Type} (m : List (String × α))
    (k : String) (v : α) : assocGet (assocSet m k v) k = some v := by
  induction m with
  | nil => simp [assocSet, assocGet]
  | cons p rest ih =>
    obtain ⟨k2, v2⟩ := p
    by_cases h : k2 = k
    · simp [assocSet, assocGet, h]
    · simp [assocSet, assocGet, h, ih]

theorem assocGet_append_of_none {α : Type} {m : List (String × α)}
    {k : String} (h : assocGet m k = none) (l : List (String × α)) :
    assocGet (m ++ l) k = assocGet l k := by
  induction m with
  | nil => simp
  | cons p rest ih =>
    obtain ⟨k2, v2⟩ := p
    by_cases hk : k2 = k
    · simp [assocGet, hk] at h
    · simp only [assocGet, hk, if_false] at h
      simp [assocGet, hk, ih h]

theorem assocSet_of_get_none {α : Type} {m : List (String × α)}
    {k : String} (h : assocGet m k = none) (v : α) :
    assocSet m k v = m ++ [(k, v)] := by
  induction m with
  | nil => simp [assocSet]
  | cons p rest ih =>
    obtain ⟨k2, v2⟩ := p
    by_cases hk : k2 = k
    · simp [assocGet, hk] at h
    · simp only [assocGet, hk, if_false] at h
      simp [assocSet, hk, ih h]

theorem assocSet_get_self {α : Type} {m : List (String × α)}
    {k : String} {v : α} (h : assocGet m k = some v) :
    assocSet m k v = m := by
  induction m with
  | nil => simp [assocGet] at h
  | cons p rest ih =>
    obtain ⟨k2, v2⟩ := p
    by_cases hk : k2 = k
    · simp only [assocGet, hk, if_true] at h
      obtain rfl : v2 = v := by exact Option.some.inj h
      simp [assocSet, hk]
    · simp only [assocGet, hk, if_false] at h
      simp [assocSet, hk, ih h]

theorem assocDelete_append_of_none {α : Type} {m : List (String × α)}
    {k : String} (h : assocGet m k = none) (v : α) :
    assocDelete (m ++ [(k, v)]) k = m := by
  induction m with
  | nil => simp [assocDelete]
  | cons p rest ih =>
    obtain ⟨k2, v2⟩ := p
    by_cases hk : k2 = k
    · simp [assocGet, hk] at h
    · simp only [assocGet, hk, if_false] at h
      simp [assocDelete, hk, ih h]

theorem membersIn_memberLeave (ms : List (String × List String))
    (rid sid : String) :
    membersIn (memberLeave ms rid sid) rid = (membersIn ms rid).erase sid := by
  unfold memberLeave membersIn
  cases h : assocGet ms rid with
  | none => simp [h]
  | some l => simp [h, assocGet_assocSet_self]

theorem membersIn_memberJoin (ms : List (String × List String))
    (rid sid : String) :
    membersIn (memberJoin ms rid sid) rid =
      if sid ∈ membersIn ms rid then membersIn ms rid
      else membersIn ms rid ++ [sid] := by
  unfold memberJoin membersIn
  cases h : assocGet ms rid with
  | none => simp [h, assocGet_append_of_none h, assocGet]
  | some l =>
    by_cases hs : sid ∈ l
    · simp [h, hs]
    · simp [h, hs, assocGet_assocSet_self]

theorem mem_membersIn_memberJoin (ms : List (String × List String))
    (rid sid : String) : sid ∈ membersIn (memberJoin ms rid sid) rid := by
  rw [membersIn_memberJoin]
  by_cases hs : sid ∈ membersIn ms rid
  · simp [hs]
  · simp [hs]

theorem nodup_membersIn_memberJoin (ms : List (String × List String))
    (rid sid : String) (h : (membersIn ms rid).Nodup) :
    (membersIn (memberJoin ms rid sid) rid).Nodup := by
  rw [membersIn_memberJoin]
  by_cases hs : sid ∈ membersIn ms rid
  · simpa [hs]
  · simp [hs, List.nodup_append, h]

/-! ## Claim theorems -/

/-- C6: on a registered room, `STROKE_ADD` pushes the stroke onto the
stroke log and leaves the redo buffer empty, even when it was non-empty
before. -/
theorem c6_append_clears_redo (st : ServerState) (b : Binding)
    (sender roomId : String) (stroke : DrawingStroke) (room : RoomState)
    (h : assocGet st.rooms roomId = some room) :
    assocGet (handleStrokeAdd st b sender roomId stroke).1.rooms roomId =
      some ⟨room.users, room.strokes ++ [stroke], []⟩ := by
  simp [handleStrokeAdd, h, assocGet_assocSet_self]

/-- C6 witness: appending over a non-empty redo buffer empties it. -/
theorem c6_append_clears_redo_witness :
    assocGet [("r1", (⟨[], [strokeS1], [strokeS2]⟩ : RoomState))] "r1" =
      some ⟨[], [strokeS1], [strokeS2]⟩ ∧
    assocGet (handleStrokeAdd ⟨[("r1", ⟨[], [strokeS1], [strokeS2]⟩)], []⟩
        ⟨none, none⟩ "a" "r1" strokeS3).1.rooms "r1" =
      some ⟨[], [strokeS1] ++ [strokeS3], []⟩ :=
  ⟨rfl,
   c6_append_clears_redo ⟨[("r1", ⟨[], [strokeS1], [strokeS2]⟩)], []⟩
     ⟨none, none⟩ "a" "r1" strokeS3 ⟨[], [strokeS1], [strokeS2]⟩ rfl⟩

/-- C7: on a registered room, `CANVAS_UNDO` with an empty stroke log and
`CANVAS_REDO` with an empty redo buffer leave the whole server state and
binding unchanged and emit nothing. -/
theorem c7_empty_undo_redo_noop (st : ServerState) (b : Binding)
    (sender roomId : String) (room : RoomState)
    (h : assocGet st.rooms roomId = some room) :
    (room.strokes = [] →
      handleCanvasUndo st b sender roomId = (st, b, [])) ∧
    (room.redoStack = [] →
      handleCanvasRedo st b sender roomId = (st, b, [])) := by
  constructor
  · intro hs
    simp [handleCanvasUndo, h, hs]
  · intro hr
    simp [handleCanvasRedo, h, hr]

/-- C7 witness: an empty room is untouched by undo and redo. -/
theorem c7_empty_undo_redo_noop_witness :
    assocGet [("r1", emptyRoom)] "r1" = some emptyRoom ∧
    ((emptyRoom.strokes = [] →
       handleCanvasUndo ⟨[("r1", emptyRoom)], []⟩ ⟨none, none⟩ "a" "r1" =
         (⟨[("r1", emptyRoom)], []⟩, ⟨none, none⟩, [])) ∧
     (emptyRoom.redoStack = [] →
       handleCanvasRedo ⟨[("r1", emptyRoom)], []⟩ ⟨none, none⟩ "a" "r1" =
         (⟨[("r1", emptyRoom)], []⟩, ⟨none, none⟩, []))) :=
  ⟨rfl, c7_empty_undo_redo_noop _ _ _ _ _ rfl⟩

/-- C9: on a registered room, a `CURSOR_MOVE` naming a participant id
absent from the room changes nothing (server state and binding are
returned untouched), yet the sender-excluded `CURSOR_UPDATE` broadcast
is still emitted, because the emit is not conditioned on the participant
lookup. -/
theorem c9_cursor_unknown_user_broadcast (st : ServerState) (b : Binding)
    (sender roomId userId : String) (position : Option Point2)
    (room : RoomState) (h : assocGet st.rooms roomId = some room)
    (hu : assocGet room.users userId = none) :
    handleCursorMove st b sender roomId userId position =
      (st, b,
       [socketTo st sender roomId .cursorUpdate (.cursorP userId position)]) := by
  simp [handleCursorMove, h, hu]

/-- C9 witness: cursor move for an unknown participant on a two-member
room still reaches the other member. -/
theorem c9_cursor_unknown_user_broadcast_witness :
    assocGet [("r1", (⟨[("ua", userA)], [], []⟩ : RoomState))] "r1" =
      some ⟨[("ua", userA)], [], []⟩ ∧
    assocGet (⟨[("ua", userA)], [], []⟩ : RoomState).users "zz" = none ∧
    handleCursorMove ⟨[("r1", ⟨[("ua", userA)], [], []⟩)], [("r1", ["a", "b"])]⟩
        ⟨some "r1", some "ua"⟩ "a" "r1" "zz" (some ⟨5, 6⟩) =
      (⟨[("r1", ⟨[("ua", userA)], [], []⟩)], [("r1", ["a", "b"])]⟩,
       ⟨some "r1", some "ua"⟩,
       [socketTo ⟨[("r1", ⟨[("ua", userA)], [], []⟩)], [("r1", ["a", "b"])]⟩
          "a" "r1" .cursorUpdate (.cursorP "zz" (some ⟨5, 6⟩))]) :=
  ⟨rfl, rfl, c9_cursor_unknown_user_broadcast _ _ _ _ _ _ _ rfl rfl⟩

theorem handleLeaveRoom_binding (st : ServerState) (b : Binding)
    (sender roomId userId : String) :
    (handleLeaveRoom st b sender roomId userId).2.1 = ⟨none, none⟩ := by
  cases h : assocGet st.rooms roomId with
  | none => simp [handleLeaveRoom, h]
  | some room => simp [handleLeaveRoom, h]

theorem handleDisconnect_none (st : ServerState) (sender : String) :
    (handleDisconnect st ⟨none, none⟩ sender).1.rooms = st.rooms ∧
    (handleDisconnect st ⟨none, none⟩ sender).2.2 = [] :=
  ⟨rfl, rfl⟩

/-- C10: `LEAVE_ROOM` clears the connection binding unconditionally —
for every payload, even one naming a different or unknown room — so a
subsequent disconnect of that connection removes no participant, cleans
up no room (the registry is untouched) and emits nothing. -/
theorem c10_leave_clears_binding (st : ServerState) (b : Binding)
    (sender roomId userId : String) :
    (handleLeaveRoom st b sender roomId userId).2.1 = ⟨none, none⟩ ∧
    (handleDisconnect (handleLeaveRoom st b sender roomId userId).1
        (handleLeaveRoom st b sender roomId userId).2.1 sender).1.rooms =
      (handleLeaveRoom st b sender roomId userId).1.rooms ∧
    (handleDisconnect (handleLeaveRoom st b sender roomId userId).1
        (handleLeaveRoom st b sender roomId userId).2.1 sender).2.2 = [] := by
  refine ⟨handleLeaveRoom_binding st b sender roomId userId, ?_, ?_⟩
  · rw [handleLeaveRoom_binding st b sender roomId userId]
    exact (handleDisconnect_none _ _).1
  · rw [handleLeaveRoom_binding st b sender roomId userId]
    exact (handleDisconnect_none _ _).2

/-! ## Undo/redo step and iteration lemmas -/

theorem handleCanvasUndo_step (st : ServerState) (b : Binding)
    (sender roomId : String) (us : List (String × User))
    (l : List DrawingStroke) (a : DrawingStroke) (r : List DrawingStroke)
    (h : assocGet st.rooms roomId = some ⟨us, l ++ [a], r⟩) :
    (handleCanvasUndo st b sender roomId).1 =
      { st with rooms := assocSet st.rooms roomId ⟨us, l, r ++ [a]⟩ } := by
  simp [handleCanvasUndo, h, List.getLast?_concat, List.dropLast_concat]

theorem handleCanvasRedo_step (st : ServerState) (b : Binding)
    (sender roomId : String) (us : List (String × User))
    (l : List DrawingStroke) (r : List DrawingStroke) (a : DrawingStroke)
    (h : assocGet st.rooms roomId = some ⟨us, l, r ++ [a]⟩) :
    (handleCanvasRedo st b sender roomId).1 =
      { st with rooms := assocSet st.rooms roomId ⟨us, l ++ [a], r⟩ } := by
  simp [handleCanvasRedo, h, List.getLast?_concat, List.dropLast_concat]

theorem undoTimes_all (b : Binding) (sender roomId : String)
    (l : List DrawingStroke) :
    ∀ (st : ServerState) (us : List (String × User))
      (r : List DrawingStroke),
      assocGet st.rooms roomId = some ⟨us, l, r⟩ →
      assocGet (undoTimes b sender roomId l.length st).rooms roomId =
        some ⟨us, [], r ++ l.reverse⟩ := by
  induction l using List.reverseRecOn with
  | nil =>
    intro st us r h
    simpa [undoTimes] using h
  | append_singleton l a ih =>
    intro st us r h
    have hstep := handleCanvasUndo_step st b sender roomId us l a r h
    have hlen : (l ++ [a]).length = l.length + 1 := by simp
    rw [hlen]
    simp only [undoTimes]
    rw [hstep]
    have h2 : assocGet
        ({ st with rooms := assocSet st.rooms roomId ⟨us, l, r ++ [a]⟩ } :
          ServerState).rooms roomId = some ⟨us, l, r ++ [a]⟩ := by
      simp [assocGet_assocSet_self]
    have h3 := ih _ us (r ++ [a]) h2
    rw [h3]
    simp

theorem redoTimes_all (b : Binding) (sender roomId : String)
    (r : List DrawingStroke) :
    ∀ (st : ServerState) (us : List (String × User))
      (l : List DrawingStroke),
      assocGet st.rooms roomId = some ⟨us, l, r⟩ →
      assocGet (redoTimes b sender roomId r.length st).rooms roomId =
        some ⟨us, l ++ r.reverse, []⟩ := by
  induction r using List.reverseRecOn with
  | nil =>
    intro st us l h
    simpa [redoTimes] using h
  | append_singleton r a ih =>
    intro st us l h
    have hstep := handleCanvasRedo_step st b sender roomId us l r a h
    have hlen : (r ++ [a]).length = r.length + 1 := by simp
    rw [hlen]
    simp only [redoTimes]
    rw [hstep]
    have h2 : assocGet
        ({ st with rooms := assocSet st.rooms roomId ⟨us, l ++ [a], r⟩ } :
          ServerState).rooms roomId = some ⟨us, l ++ [a], r⟩ := by
      simp [assocGet_assocSet_self]
    have h3 := ih _ us (l ++ [a]) h2
    rw [h3]
    simp

/-- C2: for a registered room whose stroke log is `L` and whose redo
buffer is empty, `L.length` undo operations empty the log and leave the
redo buffer `L.reverse` (most-recently-undone last), and `L.length`
subsequent redo operations restore the log to `L` and empty the redo
buffer. -/
theorem c2_undo_redo_inverse (st : ServerState) (b : Binding)
    (sender roomId : String) (us : List (String × User))
    (L : List DrawingStroke)
    (h : assocGet st.rooms roomId = some ⟨us, L, []⟩) :
    assocGet (undoTimes b sender roomId L.length st).rooms roomId =
      some ⟨us, [], L.reverse⟩ ∧
    assocGet (redoTimes b sender roomId L.length
        (undoTimes b sender roomId L.length st)).rooms roomId =
      some ⟨us, L, []⟩ := by
  have h1 := undoTimes_all b sender roomId L st us [] h
  simp only [List.nil_append] at h1
  refine ⟨h1, ?_⟩
  have h2 := redoTimes_all b sender roomId L.reverse
      (undoTimes b sender roomId L.length st) us [] h1
  rw [List.length_reverse] at h2
  simpa using h2

/-- C2 witness: a two-stroke log survives the undo-all / redo-all round
trip. -/
theorem c2_undo_redo_inverse_witness :
    assocGet [("r1", (⟨[], [strokeS1, strokeS2], []⟩ : RoomState))] "r1" =
      some ⟨[], [strokeS1, strokeS2], []⟩ ∧
    (assocGet (undoTimes ⟨none, none⟩ "a" "r1" [strokeS1, strokeS2].length
        ⟨[("r1", ⟨[], [strokeS1, strokeS2], []⟩)], []⟩).rooms "r1" =
      some ⟨[], [], [strokeS1, strokeS2].reverse⟩ ∧
     assocGet (redoTimes ⟨none, none⟩ "a" "r1" [strokeS1, strokeS2].length
        (undoTimes ⟨none, none⟩ "a" "r1" [strokeS1, strokeS2].length
          ⟨[("r1", ⟨[], [strokeS1, strokeS2], []⟩)], []⟩)).rooms "r1" =
      some ⟨[], [strokeS1, strokeS2], []⟩) :=
  ⟨rfl,
   c2_undo_redo_inverse ⟨[("r1", ⟨[], [strokeS1, strokeS2], []⟩)], []⟩
     ⟨none, none⟩ "a" "r1" [] [strokeS1, strokeS2] rfl⟩

/-- C3: on a registered room with a non-empty stroke log, `CANVAS_UNDO`
removes exactly the most recently appended stroke `a` — whatever its
author `a.userId` and whatever connection issues the undo — pushes it
onto the redo buffer, and broadcasts the resulting full stroke log to
every current member of the room, the actor included. -/
theorem c3_undo_global_broadcast (st : ServerState) (b : Binding)
    (sender roomId : String) (us : List (String × User))
    (l : List DrawingStroke) (a : DrawingStroke) (r : List DrawingStroke)
    (h : assocGet st.rooms roomId = some ⟨us, l ++ [a], r⟩)
    (hmem : sender ∈ membersIn st.members roomId) :
    (handleCanvasUndo st b sender roomId).1.rooms =
      assocSet st.rooms roomId ⟨us, l, r ++ [a]⟩ ∧
    (handleCanvasUndo st b sender roomId).2.2 =
      [⟨.canvasState, .canvasStateP l, membersIn st.members roomId⟩] ∧
    sender ∈ membersIn st.members roomId := by
  refine ⟨?_, ?_, hmem⟩ <;>
    simp [handleCanvasUndo, h, List.getLast?_concat, List.dropLast_concat,
      ioTo]

/-- C3 witness: stroke authored by participant ua is removed by an undo
issued from the socket bound to ub, and both members receive the new
canvas state. -/
theorem c3_undo_global_broadcast_witness :
    assocGet [("r1", (⟨[("ua", userA), ("ub", userB)],
        [strokeS2] ++ [strokeS1], []⟩ : RoomState))] "r1" =
      some ⟨[("ua", userA), ("ub", userB)], [strokeS2] ++ [strokeS1], []⟩ ∧
    "b" ∈ membersIn [("r1", ["a", "b"])] "r1" ∧
    ((handleCanvasUndo ⟨[("r1", ⟨[("ua", userA), ("ub", userB)],
          [strokeS2] ++ [strokeS1], []⟩)], [("r1", ["a", "b"])]⟩
        ⟨some "r1", some "ub"⟩ "b" "r1").1.rooms =
      assocSet [("r1", ⟨[("ua", userA), ("ub", userB)],
          [strokeS2] ++ [strokeS1], []⟩)] "r1"
        ⟨[("ua", userA), ("ub", userB)], [strokeS2], [] ++ [strokeS1]⟩ ∧
     (handleCanvasUndo ⟨[("r1", ⟨[("ua", userA), ("ub", userB)],
          [strokeS2] ++ [strokeS1], []⟩)], [("r1", ["a", "b"])]⟩
        ⟨some "r1", some "ub"⟩ "b" "r1").2.2 =
      [⟨.canvasState, .canvasStateP [strokeS2],
        membersIn [("r1", ["a", "b"])] "r1"⟩] ∧
     "b" ∈ membersIn [("r1", ["a", "b"])] "r1") :=
  ⟨rfl, by decide,
   c3_undo_global_broadcast
     ⟨[("r1", ⟨[("ua", userA), ("ub", userB)], [strokeS2] ++ [strokeS1], []⟩)],
      [("r1", ["a", "b"])]⟩
     ⟨some "r1", some "ub"⟩ "b" "r1" [("ua", userA), ("ub", userB)]
     [strokeS2] strokeS1 [] rfl (by decide)⟩

/-- C1: the room-switch bug. A connection bound to room r1 as its sole
participant joins r2. The implicit-leave block of the `JOIN_ROOM`
handler (lines 72-81) removes the participant and emits the leave
notifications, but — unlike `LEAVE_ROOM` (lines 124-126) and the
disconnect handler (lines 251-253) — it never deletes the emptied room,
so r1 stays in the registry with zero participants and its stroke log
retained, where the spec requires deletion. -/
theorem c1_switch_keeps_empty_room :
    assocGet (handleJoinRoom
        ⟨[("r1", ⟨[("ua", userA)], [strokeS1], []⟩)], [("r1", ["a"])]⟩
        ⟨some "r1", some "ua"⟩ "a" "r2" "ua" "Ann" "red").1.rooms "r1" =
      some ⟨[], [strokeS1], []⟩ := by
  decide

/-- C4 counterexample: a `STROKE_STREAM` event naming a room id absent
from the Session Registry still emits its relay broadcast (here it
reaches a stale transport-room member), refuting the claim that every
listed operation on an unknown room emits no broadcast. -/
theorem c4_unknown_room_counterexample :
    assocGet (⟨[], [("r1", ["a", "b"])]⟩ : ServerState).rooms "r1" = none ∧
    (handleStrokeStream ⟨[], [("r1", ["a", "b"])]⟩ ⟨none, none⟩ "a" "r1"
        "s9" "ua" ⟨0, 0⟩ "black" 2 "pen" true).2.2 =
      [⟨.strokeStreamReceived,
        .streamP "s9" "ua" ⟨0, 0⟩ "black" 2 "pen" true, ["b"]⟩] ∧
    (⟨.strokeStreamReceived,
        .streamP "s9" "ua" ⟨0, 0⟩ "black" 2 "pen" true, ["b"]⟩ : Delivery) ∈
      (handleStrokeStream ⟨[], [("r1", ["a", "b"])]⟩ ⟨none, none⟩ "a" "r1"
        "s9" "ua" ⟨0, 0⟩ "black" 2 "pen" true).2.2 := by
  refine ⟨rfl, rfl, ?_⟩
  decide

/-- C4 amended: every listed operation naming a room id absent from the
registry leaves the registry unchanged and surfaces no error, and all of
them except `STROKE_STREAM` emit nothing; `STROKE_STREAM` never consults
the registry and unconditionally relays the point sender-excluded to the
named transport room. -/
theorem c4_unknown_room_noop (st : ServerState) (b : Binding)
    (sender rid uid sid col tl : String) (stroke : DrawingStroke)
    (pos : Option Point2) (pt : Point2) (w : Int) (isS : Bool)
    (h : assocGet st.rooms rid = none) :
    handleStrokeAdd st b sender rid stroke = (st, b, []) ∧
    handleCanvasUndo st b sender rid = (st, b, []) ∧
    handleCanvasRedo st b sender rid = (st, b, []) ∧
    handleCanvasClear st b sender rid = (st, b, []) ∧
    handleCursorMove st b sender rid uid pos = (st, b, []) ∧
    handleRoomDeleted st b sender rid = (st, b, []) ∧
    (handleLeaveRoom st b sender rid uid).1.rooms = st.rooms ∧
    (handleLeaveRoom st b sender rid uid).2.2 = [] ∧
    (handleStrokeStream st b sender rid sid uid pt col w tl isS).1 = st ∧
    (handleStrokeStream st b sender rid sid uid pt col w tl isS).2.2 =
      [socketTo st sender rid .strokeStreamReceived
        (.streamP sid uid pt col w tl isS)] := by
  refine ⟨?_, ?_, ?_, ?_, ?_, ?_, ?_, ?_, rfl, rfl⟩
  · simp [handleStrokeAdd, h]
  · simp [handleCanvasUndo, h]
  · simp [handleCanvasRedo, h]
  · simp [handleCanvasClear, h]
  · simp [handleCursorMove, h]
  · simp [handleRoomDeleted, h]
  · simp [handleLeaveRoom, h]
  · simp [handleLeaveRoom, h]

/-- C4 witness: on an empty registry every guarded handler is a complete
no-op and only the stream relay emits. -/
theorem c4_unknown_room_noop_witness :
    assocGet (⟨[], []⟩ : ServerState).rooms "r1" = none ∧
    (handleStrokeAdd ⟨[], []⟩ ⟨none, none⟩ "a" "r1" strokeS1 =
      (⟨[], []⟩, ⟨none, none⟩, []) ∧
     handleCanvasUndo ⟨[], []⟩ ⟨none, none⟩ "a" "r1" =
      (⟨[], []⟩, ⟨none, none⟩, []) ∧
     handleCanvasRedo ⟨[], []⟩ ⟨none, none⟩ "a" "r1" =
      (⟨[], []⟩, ⟨none, none⟩, []) ∧
     handleCanvasClear ⟨[], []⟩ ⟨none, none⟩ "a" "r1" =
      (⟨[], []⟩, ⟨none, none⟩, []) ∧
     handleCursorMove ⟨[], []⟩ ⟨none, none⟩ "a" "r1" "u1" none =
      (⟨[], []⟩, ⟨none, none⟩, []) ∧
     handleRoomDeleted ⟨[], []⟩ ⟨none, none⟩ "a" "r1" =
      (⟨[], []⟩, ⟨none, none⟩, []) ∧
     (handleLeaveRoom ⟨[], []⟩ ⟨none, none⟩ "a" "r1" "u1").1.rooms =
      (⟨[], []⟩ : ServerState).rooms ∧
     (handleLeaveRoom ⟨[], []⟩ ⟨none, none⟩ "a" "r1" "u1").2.2 = [] ∧
     (handleStrokeStream ⟨[], []⟩ ⟨none, none⟩ "a" "r1" "s9" "u1" ⟨0, 0⟩
        "black" 2 "pen" true).1 = ⟨[], []⟩ ∧
     (handleStrokeStream ⟨[], []⟩ ⟨none, none⟩ "a" "r1" "s9" "u1" ⟨0, 0⟩
        "black" 2 "pen" true).2.2 =
      [socketTo ⟨[], []⟩ "a" "r1" .strokeStreamReceived
        (.streamP "s9" "u1" ⟨0, 0⟩ "black" 2 "pen" true)]) :=
  ⟨rfl,
   c4_unknown_room_noop ⟨[], []⟩ ⟨none, none⟩ "a" "r1" "u1" "s9" "black"
     "pen" strokeS1 none ⟨0, 0⟩ 2 true rfl⟩

/-! ## Further association-list lemmas and handler state lemmas -/

theorem assocSet_assocSet {α : Type} (m : List (String × α)) (k : String)
    (v w : α) : assocSet (assocSet m k v) k w = assocSet m k w := by
  induction m with
  | nil => simp [assocSet]
  | cons p rest ih =>
    obtain ⟨k2, v2⟩ := p
    by_cases hk : k2 = k
    · simp [assocSet, hk]
    · simp [assocSet, hk, ih]

theorem assocGet_of_not_mem {α : Type} {m : List (String × α)} {k : String}
    (h : k ∉ m.map Prod.fst) : assocGet m k = none := by
  induction m with
  | nil => rfl
  | cons p rest ih =>
    obtain ⟨k2, v2⟩ := p
    simp only [List.map_cons, List.mem_cons] at h
    push_neg at h
    have hk : k2 ≠ k := fun hh => h.1 hh.symm
    simp [assocGet, hk, ih h.2]

theorem assocGet_assocDelete_self {α : Type} {m : List (String × α)}
    (k : String) (h : (m.map Prod.fst).Nodup) :
    assocGet (assocDelete m k) k = none := by
  induction m with
  | nil => rfl
  | cons p rest ih =>
    obtain ⟨k2, v2⟩ := p
    simp only [List.map_cons, List.nodup_cons] at h
    by_cases hk : k2 = k
    · subst hk
      simp only [assocDelete, if_pos rfl]
      exact assocGet_of_not_mem h.1
    · simp [assocDelete, hk, assocGet, ih h.2]

theorem assocSet_append_self {α : Type} {m : List (String × α)} {k : String}
    (h : assocGet m k = none) (w v : α) :
    assocSet (m ++ [(k, w)]) k v = m ++ [(k, v)] := by
  induction m with
  | nil => simp [assocSet]
  | cons p rest ih =>
    obtain ⟨k2, v2⟩ := p
    by_cases hk : k2 = k
    · simp [assocGet, hk] at h
    · simp only [assocGet, hk, if_false] at h
      simp [assocSet, hk, ih h]

theorem usersAt_eq_of_get {rooms : List (String × RoomState)} {rid : String}
    {room : RoomState} (h : assocGet rooms rid = some room) :
    usersAt rooms rid = room.users := by
  simp [usersAt, h]

theorem usersAt_eq_nil_of_none {rooms : List (String × RoomState)}
    {rid : String} (h : assocGet rooms rid = none) :
    usersAt rooms rid = [] := by
  simp [usersAt, h]

theorem handleJoinRoom_none_state (st : ServerState) (b : Binding)
    (sender rid uid nm col : String)
    (hb : b.currentRoomId = none)
    (hroom : assocGet st.rooms rid = none) :
    (handleJoinRoom st b sender rid uid nm col).1.rooms =
      st.rooms ++ [(rid, ⟨[(uid, ⟨uid, nm, col, none, true⟩)], [], []⟩)] ∧
    (handleJoinRoom st b sender rid uid nm col).2.1 = ⟨some rid, some uid⟩ := by
  constructor
  · simp [handleJoinRoom, hb, getOrCreateRooms, hroom, emptyRoom,
      assocSet_append_self hroom, assocSet]
  · simp [handleJoinRoom, hb]

theorem handleJoinRoom_some_state (st : ServerState) (b : Binding)
    (sender rid uid nm col : String) (room : RoomState)
    (hb : b.currentRoomId = none)
    (hroom : assocGet st.rooms rid = some room) :
    (handleJoinRoom st b sender rid uid nm col).1.rooms =
      assocSet st.rooms rid
        { room with
            users := assocSet room.users uid ⟨uid, nm, col, none, true⟩ } ∧
    (handleJoinRoom st b sender rid uid nm col).2.1 = ⟨some rid, some uid⟩ := by
  constructor
  · simp [handleJoinRoom, hb, getOrCreateRooms, hroom]
  · simp [handleJoinRoom, hb]

theorem handleLeaveRoom_state (st : ServerState) (b : Binding)
    (sender rid uid : String) (room : RoomState)
    (hroom : assocGet st.rooms rid = some room) :
    (handleLeaveRoom st b sender rid uid).1.rooms =
      (if (assocDelete room.users uid).length = 0
       then assocDelete
         (assocSet st.rooms rid
           { room with users := assocDelete room.users uid }) rid
       else assocSet st.rooms rid
         { room with users := assocDelete room.users uid }) := by
  simp [handleLeaveRoom, hroom]

theorem join_fresh_strokes (st2 : ServerState) (b2 : Binding)
    (sender rid uid2 nm2 col2 : String)
    (hb2 : b2.currentRoomId = none)
    (h2 : assocGet st2.rooms rid = none) :
    (assocGet (handleJoinRoom st2 b2 sender rid uid2 nm2 col2).1.rooms
        rid).map RoomState.strokes = some [] ∧
    (assocGet (handleJoinRoom st2 b2 sender rid uid2 nm2 col2).1.rooms
        rid).map RoomState.redoStack = some [] := by
  obtain ⟨hj, hjb⟩ :=
    handleJoinRoom_none_state st2 b2 sender rid uid2 nm2 col2 hb2 h2
  rw [hj, assocGet_append_of_none h2]
  constructor <;> simp [assocGet]

/-- C5 counterexample: when the participant id is already present in the
room (here with a set cursor), join overwrites the record and the
following leave removes it and deletes the emptied room, so the
participant map is not restored to its pre-join value. -/
theorem c5_rejoin_counterexample :
    usersAt (⟨[("r1", ⟨[("ua", cursorUser)], [], []⟩)], []⟩ :
        ServerState).rooms "r1" = [("ua", cursorUser)] ∧
    usersAt (handleLeaveRoom
        (handleJoinRoom ⟨[("r1", ⟨[("ua", cursorUser)], [], []⟩)], []⟩
          ⟨none, none⟩ "a" "r1" "ua" "Ann" "red").1
        (handleJoinRoom ⟨[("r1", ⟨[("ua", cursorUser)], [], []⟩)], []⟩
          ⟨none, none⟩ "a" "r1" "ua" "Ann" "red").2.1 "a" "r1"
        "ua").1.rooms "r1" = [] ∧
    ([] : List (String × User)) ≠ [("ua", cursorUser)] := by
  refine ⟨rfl, rfl, ?_⟩
  decide

/-- C5 amended: for a connection with no current binding and a
participant id not already present in the target room, a join followed
by a leave with the same participant id restores the room's participant
map; when the pre-join participant map was empty, the room is moreover
absent from the registry afterwards and a subsequent join to the same
room id starts with an empty stroke log and an empty redo buffer. The
registry is assumed to have distinct keys, as a JS `Map` guarantees. -/
theorem c5_join_leave_round_trip (st : ServerState) (b : Binding)
    (sender rid uid uid2 nm col nm2 col2 : String)
    (hb : b.currentRoomId = none)
    (hnd : (st.rooms.map Prod.fst).Nodup)
    (hu : ∀ room, assocGet st.rooms rid = some room →
      assocGet room.users uid = none) :
    usersAt (handleLeaveRoom (handleJoinRoom st b sender rid uid nm col).1
        (handleJoinRoom st b sender rid uid nm col).2.1 sender rid
        uid).1.rooms rid = usersAt st.rooms rid ∧
    (usersAt st.rooms rid = [] →
      assocGet (handleLeaveRoom (handleJoinRoom st b sender rid uid nm col).1
          (handleJoinRoom st b sender rid uid nm col).2.1 sender rid
          uid).1.rooms rid = none ∧
      (assocGet (handleJoinRoom
          (handleLeaveRoom (handleJoinRoom st b sender rid uid nm col).1
            (handleJoinRoom st b sender rid uid nm col).2.1 sender rid uid).1
          (handleLeaveRoom (handleJoinRoom st b sender rid uid nm col).1
            (handleJoinRoom st b sender rid uid nm col).2.1 sender rid uid).2.1
          sender rid uid2 nm2 col2).1.rooms rid).map RoomState.strokes =
        some [] ∧
      (assocGet (handleJoinRoom
          (handleLeaveRoom (handleJoinRoom st b sender rid uid nm col).1
            (handleJoinRoom st b sender rid uid nm col).2.1 sender rid uid).1
          (handleLeaveRoom (handleJoinRoom st b sender rid uid nm col).1
            (handleJoinRoom st b sender rid uid nm col).2.1 sender rid uid).2.1
          sender rid uid2 nm2 col2).1.rooms rid).map RoomState.redoStack =
        some []) := by
  have hb2 : (handleLeaveRoom (handleJoinRoom st b sender rid uid nm col).1
      (handleJoinRoom st b sender rid uid nm col).2.1 sender rid
      uid).2.1.currentRoomId = none := by
    rw [handleLeaveRoom_binding]
  cases hroom : assocGet st.rooms rid with
  | none =>
    obtain ⟨hj, hjb⟩ :=
      handleJoinRoom_none_state st b sender rid uid nm col hb hroom
    have hJget : assocGet
        (handleJoinRoom st b sender rid uid nm col).1.rooms rid =
        some ⟨[(uid, ⟨uid, nm, col, none, true⟩)], [], []⟩ := by
      rw [hj, assocGet_append_of_none hroom]
      simp [assocGet]
    have hL := handleLeaveRoom_state
      (handleJoinRoom st b sender rid uid nm col).1
      (handleJoinRoom st b sender rid uid nm col).2.1 sender rid uid _ hJget
    rw [hj] at hL
    simp only [assocDelete, if_pos rfl, List.length_nil] at hL
    rw [assocSet_append_self hroom] at hL
    rw [assocDelete_append_of_none hroom] at hL
    have hfin : (handleLeaveRoom (handleJoinRoom st b sender rid uid nm col).1
        (handleJoinRoom st b sender rid uid nm col).2.1 sender rid
        uid).1.rooms = st.rooms := by
      rw [hL]
      simp
    constructor
    · rw [hfin]
    · intro _
      have hnone : assocGet
          (handleLeaveRoom (handleJoinRoom st b sender rid uid nm col).1
            (handleJoinRoom st b sender rid uid nm col).2.1 sender rid
            uid).1.rooms rid = none := by
        rw [hfin]
        exact hroom
      exact ⟨hnone,
        (join_fresh_strokes _ _ sender rid uid2 nm2 col2 hb2 hnone).1,
        (join_fresh_strokes _ _ sender rid uid2 nm2 col2 hb2 hnone).2⟩
  | some room =>
    have huser := hu room hroom
    obtain ⟨hj, hjb⟩ :=
      handleJoinRoom_some_state st b sender rid uid nm col room hb hroom
    have hJget : assocGet
        (handleJoinRoom st b sender rid uid nm col).1.rooms rid =
        some { room with
            users := assocSet room.users uid ⟨uid, nm, col, none, true⟩ } := by
      rw [hj]
      exact assocGet_assocSet_self st.rooms rid _
    have hL := handleLeaveRoom_state
      (handleJoinRoom st b sender rid uid nm col).1
      (handleJoinRoom st b sender rid uid nm col).2.1 sender rid uid _ hJget
    rw [hj] at hL
    have hdel : assocDelete
        (assocSet room.users uid ⟨uid, nm, col, none, true⟩) uid =
        room.users := by
      rw [assocSet_of_get_none huser, assocDelete_append_of_none huser]
    simp only [hdel, assocSet_assocSet] at hL
    rw [assocSet_get_self hroom] at hL
    by_cases hlen : room.users.length = 0
    · have hempty : room.users = [] := List.length_eq_zero.mp hlen
      rw [if_pos hlen] at hL
      have hnone : assocGet
          (handleLeaveRoom (handleJoinRoom st b sender rid uid nm col).1
            (handleJoinRoom st b sender rid uid nm col).2.1 sender rid
            uid).1.rooms rid = none := by
        rw [hL]
        exact assocGet_assocDelete_self rid hnd
      constructor
      · rw [usersAt_eq_nil_of_none hnone, usersAt_eq_of_get hroom, hempty]
      · intro _
        exact ⟨hnone,
          (join_fresh_strokes _ _ sender rid uid2 nm2 col2 hb2 hnone).1,
          (join_fresh_strokes _ _ sender rid uid2 nm2 col2 hb2 hnone).2⟩
    · rw [if_neg hlen] at hL
      constructor
      · rw [hL]
      · intro husers
        rw [usersAt_eq_of_get hroom] at husers
        exact absurd (by rw [husers]; rfl) hlen

/-- C5 witness: on an empty registry, joining room r1 and leaving it
again deletes the room, and a fresh join finds empty canvas history. -/
theorem c5_join_leave_round_trip_witness :
    (⟨none, none⟩ : Binding).currentRoomId = none ∧
    ((⟨[], []⟩ : ServerState).rooms.map Prod.fst).Nodup ∧
    (∀ room, assocGet (⟨[], []⟩ : ServerState).rooms "r1" = some room →
      assocGet room.users "ua" = none) ∧
    (usersAt (handleLeaveRoom
        (handleJoinRoom ⟨[], []⟩ ⟨none, none⟩ "a" "r1" "ua" "Ann" "red").1
        (handleJoinRoom ⟨[], []⟩ ⟨none, none⟩ "a" "r1" "ua" "Ann" "red").2.1
        "a" "r1" "ua").1.rooms "r1" =
      usersAt (⟨[], []⟩ : ServerState).rooms "r1" ∧
     (usersAt (⟨[], []⟩ : ServerState).rooms "r1" = [] →
      assocGet (handleLeaveRoom
          (handleJoinRoom ⟨[], []⟩ ⟨none, none⟩ "a" "r1" "ua" "Ann" "red").1
          (handleJoinRoom ⟨[], []⟩ ⟨none, none⟩ "a" "r1" "ua" "Ann"
            "red").2.1 "a" "r1" "ua").1.rooms "r1" = none ∧
      (assocGet (handleJoinRoom
          (handleLeaveRoom
            (handleJoinRoom ⟨[], []⟩ ⟨none, none⟩ "a" "r1" "ua" "Ann" "red").1
            (handleJoinRoom ⟨[], []⟩ ⟨none, none⟩ "a" "r1" "ua" "Ann"
              "red").2.1 "a" "r1" "ua").1
          (handleLeaveRoom
            (handleJoinRoom ⟨[], []⟩ ⟨none, none⟩ "a" "r1" "ua" "Ann" "red").1
            (handleJoinRoom ⟨[], []⟩ ⟨none, none⟩ "a" "r1" "ua" "Ann"
              "red").2.1 "a" "r1" "ua").2.1
          "a" "r1" "ub" "Bob" "blue").1.rooms "r1").map RoomState.strokes =
        some [] ∧
      (assocGet (handleJoinRoom
          (handleLeaveRoom
            (handleJoinRoom ⟨[], []⟩ ⟨none, none⟩ "a" "r1" "ua" "Ann" "red").1
            (handleJoinRoom ⟨[], []⟩ ⟨none, none⟩ "a" "r1" "ua" "Ann"
              "red").2.1 "a" "r1" "ua").1
          (handleLeaveRoom
            (handleJoinRoom ⟨[], []⟩ ⟨none, none⟩ "a" "r1" "ua" "Ann" "red").1
            (handleJoinRoom ⟨[], []⟩ ⟨none, none⟩ "a" "r1" "ua" "Ann"
              "red").2.1 "a" "r1" "ua").2.1
          "a" "r1" "ub" "Bob" "blue").1.rooms "r1").map RoomState.redoStack =
        some [])) :=
  ⟨rfl, List.nodup_nil,
   fun room h => by simp [assocGet] at h,
   c5_join_leave_round_trip ⟨[], []⟩ ⟨none, none⟩ "a" "r1" "ua" "ub" "Ann"
     "red" "Bob" "blue" rfl List.nodup_nil
     (fun room h => by simp [assocGet] at h)⟩

/-- C8 counterexample: on an explicit leave, `socket.leave` runs before
the `io.to` emits, so the leaver — a transport member of the room when
the event arrived — receives neither the participant-left notification
nor the updated participants-list; the participants-list does not reach
"the whole room including the sender" as the claim states. -/
theorem c8_leave_list_excludes_sender :
    "a" ∈ membersIn [("r1", ["a", "b"])] "r1" ∧
    (handleLeaveRoom
        ⟨[("r1", ⟨[("ua", userA), ("ub", userB)], [], []⟩)],
         [("r1", ["a", "b"])]⟩
        ⟨some "r1", some "ua"⟩ "a" "r1" "ua").2.2 =
      [⟨.userLeave, .userLeaveP (some "ua"), ["b"]⟩,
       ⟨.usersList, .usersListP [userB], ["b"]⟩] ∧
    "a" ∉ (["b"] : List String) := by
  refine ⟨by decide, rfl, by decide⟩

theorem handleCanvasUndo_deliveries (st : ServerState) (b : Binding)
    (sender rid : String) (room : RoomState)
    (hroom : assocGet st.rooms rid = some room) (hs : room.strokes ≠ []) :
    (handleCanvasUndo st b sender rid).2.2.map
        (fun d => (d.event, d.recipients)) =
      [(.canvasState, membersIn st.members rid)] := by
  rcases room.strokes.eq_nil_or_concat with hnil | ⟨l2, a2, hconc⟩
  · exact absurd hnil hs
  · simp [handleCanvasUndo, hroom, hconc, List.concat_eq_append,
      List.getLast?_concat, ioTo]

theorem handleCanvasRedo_deliveries (st : ServerState) (b : Binding)
    (sender rid : String) (room : RoomState)
    (hroom : assocGet st.rooms rid = some room) (hr : room.redoStack ≠ []) :
    (handleCanvasRedo st b sender rid).2.2.map
        (fun d => (d.event, d.recipients)) =
      [(.canvasState, membersIn st.members rid)] := by
  rcases room.redoStack.eq_nil_or_concat with hnil | ⟨l2, a2, hconc⟩
  · exact absurd hnil hr
  · simp [handleCanvasRedo, hroom, hconc, List.concat_eq_append,
      List.getLast?_concat, ioTo]

theorem handleJoinRoom_deliveries (st : ServerState) (b : Binding)
    (sender rid uid nm col : String) (hb : b.currentRoomId = none) :
    (handleJoinRoom st b sender rid uid nm col).2.2.map
        (fun d => (d.event, d.recipients)) =
      [(.roomJoined, [sender]),
       (.userJoin,
         (membersIn (memberJoin st.members rid sender) rid).erase sender),
       (.usersList, membersIn (memberJoin st.members rid sender) rid)] := by
  cases hex : assocGet st.rooms rid <;>
    simp [handleJoinRoom, hb, hex, getOrCreateRooms, socketEmit, socketTo,
      ioTo]

theorem handleLeaveRoom_deliveries (st : ServerState) (b : Binding)
    (sender rid uid : String) (room : RoomState)
    (hroom : assocGet st.rooms rid = some room) :
    (handleLeaveRoom st b sender rid uid).2.2.map
        (fun d => (d.event, d.recipients)) =
      [(.userLeave, (membersIn st.members rid).erase sender),
       (.usersList, (membersIn st.members rid).erase sender)] := by
  simp [handleLeaveRoom, hroom, ioTo, membersIn_memberLeave]

/-- C8 amended: the fan-out table holds with one refinement. Stroke-add,
stroke-stream, cursor-update and participant-joined reach the room minus
the sender; canvas-state (undo and redo), canvas-cleared and
room-deleted reach every current member, the sender included whenever
the sender is a member; the join snapshot reaches the sender only and
the participants-list emitted on join reaches the whole room including
the sender. But the participant-left notification and the
participants-list emitted during a leave reach only the remaining
members: the sender has already left the transport room when they are
emitted, so the leave-flow participants-list does not include the
sender, contrary to the original claim. -/
theorem c8_fanout_policy (st : ServerState) (b : Binding)
    (sender rid uid nm ucol sid col tl : String) (pos : Option Point2)
    (stroke : DrawingStroke) (pt : Point2) (w : Int) (isS : Bool)
    (room : RoomState)
    (hb : b.currentRoomId = none)
    (hroom : assocGet st.rooms rid = some room)
    (hs : room.strokes ≠ [])
    (hr : room.redoStack ≠ [])
    (hnd : (membersIn st.members rid).Nodup)
    (hmem : sender ∈ membersIn st.members rid) :
    (handleStrokeAdd st b sender rid stroke).2.2.map
        (fun d => (d.event, d.recipients)) =
      [(.strokeReceived, (membersIn st.members rid).erase sender)] ∧
    (handleStrokeStream st b sender rid sid uid pt col w tl isS).2.2.map
        (fun d => (d.event, d.recipients)) =
      [(.strokeStreamReceived, (membersIn st.members rid).erase sender)] ∧
    (handleCursorMove st b sender rid uid pos).2.2.map
        (fun d => (d.event, d.recipients)) =
      [(.cursorUpdate, (membersIn st.members rid).erase sender)] ∧
    (handleCanvasUndo st b sender rid).2.2.map
        (fun d => (d.event, d.recipients)) =
      [(.canvasState, membersIn st.members rid)] ∧
    (handleCanvasRedo st b sender rid).2.2.map
        (fun d => (d.event, d.recipients)) =
      [(.canvasState, membersIn st.members rid)] ∧
    (handleCanvasClear st b sender rid).2.2.map
        (fun d => (d.event, d.recipients)) =
      [(.canvasCleared, membersIn st.members rid)] ∧
    (handleRoomDeleted st b sender rid).2.2.map
        (fun d => (d.event, d.recipients)) =
      [(.roomDeleted, membersIn st.members rid)] ∧
    (handleJoinRoom st b sender rid uid nm ucol).2.2.map
        (fun d => (d.event, d.recipients)) =
      [(.roomJoined, [sender]),
       (.userJoin,
         (membersIn (memberJoin st.members rid sender) rid).erase sender),
       (.usersList, membersIn (memberJoin st.members rid sender) rid)] ∧
    (handleLeaveRoom st b sender rid uid).2.2.map
        (fun d => (d.event, d.recipients)) =
      [(.userLeave, (membersIn st.members rid).erase sender),
       (.usersList, (membersIn st.members rid).erase sender)] ∧
    sender ∈ membersIn st.members rid ∧
    sender ∈ membersIn (memberJoin st.members rid sender) rid ∧
    sender ∉ (membersIn st.members rid).erase sender ∧
    sender ∉ (membersIn (memberJoin st.members rid sender) rid).erase
      sender := by
  refine ⟨?_, ?_, ?_,
    handleCanvasUndo_deliveries st b sender rid room hroom hs,
    handleCanvasRedo_deliveries st b sender rid room hroom hr,
    ?_, ?_,
    handleJoinRoom_deliveries st b sender rid uid nm ucol hb,
    handleLeaveRoom_deliveries st b sender rid uid room hroom,
    hmem, mem_membersIn_memberJoin st.members rid sender,
    hnd.not_mem_erase,
    (nodup_membersIn_memberJoin st.members rid sender hnd).not_mem_erase⟩
  · simp [handleStrokeAdd, hroom, socketTo]
  · simp [handleStrokeStream, socketTo]
  · cases hu2 : assocGet room.users uid <;>
      simp [handleCursorMove, hroom, hu2, socketTo]
  · simp [handleCanvasClear, hroom, ioTo]
  · simp [handleRoomDeleted, hroom, ioTo]

/-- C8 witness: the fan-out table evaluated on a two-member room, sender
socket a bound to participant ua, the other member socket b. -/
theorem c8_fanout_policy_witness :
    (⟨none, none⟩ : Binding).currentRoomId = none ∧
    assocGet (⟨[("r1", ⟨[("ua", userA), ("ub", userB)], [strokeS1],
        [strokeS2]⟩)], [("r1", ["a", "b"])]⟩ : ServerState).rooms "r1" =
      some ⟨[("ua", userA), ("ub", userB)], [strokeS1], [strokeS2]⟩ ∧
    ((⟨[("ua", userA), ("ub", userB)], [strokeS1], [strokeS2]⟩ :
      RoomState).strokes ≠ []) ∧
    ((⟨[("ua", userA), ("ub", userB)], [strokeS1], [strokeS2]⟩ :
      RoomState).redoStack ≠ []) ∧
    (membersIn [("r1", ["a", "b"])] "r1").Nodup ∧
    "a" ∈ membersIn [("r1", ["a", "b"])] "r1" ∧
    ((handleStrokeAdd ⟨[("r1", ⟨[("ua", userA), ("ub", userB)], [strokeS1],
          [strokeS2]⟩)], [("r1", ["a", "b"])]⟩ ⟨none, none⟩ "a" "r1"
          strokeS3).2.2.map (fun d => (d.event, d.recipients)) =
        [(.strokeReceived, ["b"])] ∧
     (handleStrokeStream ⟨[("r1", ⟨[("ua", userA), ("ub", userB)],
          [strokeS1], [strokeS2]⟩)], [("r1", ["a", "b"])]⟩ ⟨none, none⟩ "a"
          "r1" "s9" "ua" ⟨0, 0⟩ "black" 1 "pen" true).2.2.map
          (fun d => (d.event, d.recipients)) =
        [(.strokeStreamReceived, ["b"])] ∧
     (handleCursorMove ⟨[("r1", ⟨[("ua", userA), ("ub", userB)], [strokeS1],
          [strokeS2]⟩)], [("r1", ["a", "b"])]⟩ ⟨none, none⟩ "a" "r1" "ua"
          none).2.2.map (fun d => (d.event, d.recipients)) =
        [(.cursorUpdate, ["b"])] ∧
     (handleCanvasUndo ⟨[("r1", ⟨[("ua", userA), ("ub", userB)], [strokeS1],
          [strokeS2]⟩)], [("r1", ["a", "b"])]⟩ ⟨none, none⟩ "a"
          "r1").2.2.map (fun d => (d.event, d.recipients)) =
        [(.canvasState, ["a", "b"])] ∧
     (handleCanvasRedo ⟨[("r1", ⟨[("ua", userA), ("ub", userB)], [strokeS1],
          [strokeS2]⟩)], [("r1", ["a", "b"])]⟩ ⟨none, none⟩ "a"
          "r1").2.2.map (fun d => (d.event, d.recipients)) =
        [(.canvasState, ["a", "b"])] ∧
     (handleCanvasClear ⟨[("r1", ⟨[("ua", userA), ("ub", userB)],
          [strokeS1], [strokeS2]⟩)], [("r1", ["a", "b"])]⟩ ⟨none, none⟩ "a"
          "r1").2.2.map (fun d => (d.event, d.recipients)) =
        [(.canvasCleared, ["a", "b"])] ∧
     (handleRoomDeleted ⟨[("r1", ⟨[("ua", userA), ("ub", userB)],
          [strokeS1], [strokeS2]⟩)], [("r1", ["a", "b"])]⟩ ⟨none, none⟩ "a"
          "r1").2.2.map (fun d => (d.event, d.recipients)) =
        [(.roomDeleted, ["a", "b"])] ∧
     (handleJoinRoom ⟨[("r1", ⟨[("ua", userA), ("ub", userB)], [strokeS1],
          [strokeS2]⟩)], [("r1", ["a", "b"])]⟩ ⟨none, none⟩ "a" "r1" "ua"
          "Ann" "red").2.2.map (fun d => (d.event, d.recipients)) =
        [(.roomJoined, ["a"]), (.userJoin, ["b"]),
         (.usersList, ["a", "b"])] ∧
     (handleLeaveRoom ⟨[("r1", ⟨[("ua", userA), ("ub", userB)], [strokeS1],
          [strokeS2]⟩)], [("r1", ["a", "b"])]⟩ ⟨none, none⟩ "a" "r1"
          "ua").2.2.map (fun d => (d.event, d.recipients)) =
        [(.userLeave, ["b"]), (.usersList, ["b"])] ∧
     "a" ∈ (["a", "b"] : List String) ∧
     "a" ∈ (["a", "b"] : List String) ∧
     "a" ∉ (["b"] : List String) ∧
     "a" ∉ (["b"] : List String)) :=
  ⟨rfl, rfl, by decide, by decide, by decide, by decide,
   c8_fanout_policy
     ⟨[("r1", ⟨[("ua", userA), ("ub", userB)], [strokeS1], [strokeS2]⟩)],
      [("r1", ["a", "b"])]⟩
     ⟨none, none⟩ "a" "r1" "ua" "Ann" "red" "s9" "black" "pen" none strokeS3
     ⟨0, 0⟩ 1 true ⟨[("ua", userA), ("ub", userB)], [strokeS1], [strokeS2]⟩
     rfl rfl (by decide) (by decide) (by decide) (by decide)⟩
